import Mathlib

/-!
Verification of the photosort pipeline (src/src/main.rs) against its
specification.  The Rust source is shallowly embedded: file-system state is
passed explicitly, fallible operations return `Except`/`Option`, and a Rust
panic (a failing `.unwrap()`) is modelled as the `none` result of an
`Option`-returning function.
-/

namespace Photosort

/-! ## Model of Rust `std::path::Path` operations (Unix semantics)

`Path::components` normalisation: empty components and `"."` components are
dropped, except that a leading `"."` on a relative path is kept;
`file_name` is the last component when it is a normal component;
`parent` drops the last component, returning `none` for an empty path or
the bare root. -/

/-- Split a character list at every `'/'` (the chunks between separators;
always non-empty as a list of chunks). -/
def splitSlash : List Char → List (List Char)
  | [] => [[]]
  | c :: rest =>
    match splitSlash rest with
    | [] => [[c]]
    | s :: ss => if c = '/' then [] :: s :: ss else (c :: s) :: ss

/-- Normalisation of the non-empty chunks, following Rust `Path::components`
on Unix: `"."` chunks are dropped, except that a leading `"."` of a relative
path is kept. -/
def normComps (hasRoot : Bool) (raw : List (List Char)) : List (List Char) :=
  match raw with
  | [] => []
  | c :: rest =>
    let restF := rest.filter (fun c => c ≠ ['.'])
    if c = ['.'] then (if hasRoot then restF else ['.'] :: restF)
    else c :: restF

/-- Split a path string into (hasRoot, normalised component list), following
Rust `Path::components` on Unix. -/
def pathComponents (p : String) : Bool × List (List Char) :=
  let cs := p.data
  let hasRoot := cs.head? = some '/'
  let raw := (splitSlash cs).filter (fun c => c ≠ [])
  (hasRoot, normComps hasRoot raw)

/-- Re-render a (hasRoot, components) pair as a path string. -/
def renderPath (hasRoot : Bool) (comps : List (List Char)) : String :=
  ⟨(if hasRoot then ['/'] else []) ++ (comps.intersperse ['/']).flatten⟩

/-- Model of Rust `Path::file_name`: the final normal component, or `none`
when the path is empty, ends in `..`, or is the root / current directory. -/
def fileName (p : String) : Option String :=
  match (pathComponents p).2.getLast? with
  | none => none
  | some c => if c = ['.', '.'] ∨ c = ['.'] then none else some ⟨c⟩

/-- Model of Rust `Path::parent`: the path with its final component removed,
or `none` for an empty path or the bare root. -/
def parentPath (p : String) : Option String :=
  match pathComponents p with
  | (_, []) => none
  | (hasRoot, comps) => some (renderPath hasRoot comps.dropLast)

/-- The directories created by `std::fs::create_dir_all d`: every non-empty
prefix of `d`'s component list. -/
def createdDirs (d : String) : List String :=
  let pc := pathComponents d
  (List.range pc.2.length).map (fun k => renderPath pc.1 (pc.2.take (k + 1)))

/-! ## Data model -/

/-- Capture date as exposed by `chrono` (`date.year() : i32`,
`date.month(), date.day() : u32`). -/
structure Date where
  year : Int
  month : Nat
  day : Nat
deriving DecidableEq, Repr

/-- The `Photo` record as used by `main.rs`: `path()`, `new_path()` and
`date()` all return optional values; `set_new_path` updates `new_path`. -/
structure Photo where
  path : Option String
  new_path : Option String
  date : Option Date
deriving DecidableEq, Repr

/-- Rust `format!("{:02}", n)` for an unsigned value: decimal, left-padded
with `0` to width two. -/
def pad2 (n : Nat) : String :=
  if n < 10 then "0" ++ toString n else toString n

/-! ## Embedding of `update_photo_new_path` (main.rs lines 100-132)

The Rust function mutates `photo` in place and returns `()`; it has no error
channel.  We return `Option (Photo × List String)`: the updated photo plus
the log lines emitted, with `none` marking a panic (the `.unwrap()` on
`photo.path()` at line 101 or on `photo.date()` at line 119). -/

/-- The destination path built by `format!("{}/{}/{:02}/{:02}/{}", dest_dir,
date.year(), date.month(), date.day(), new_name)` (main.rs lines 120-127). -/
def plannedPath (dest_dir : String) (date : Date) (new_name : String) : String :=
  dest_dir ++ "/" ++ toString date.year ++ "/" ++
    pad2 date.month ++ "/" ++ pad2 date.day ++ "/" ++ new_name

def update_photo_new_path (dest_dir : String) (photo : Photo)
    (original_name : Option String) : Option (Photo × List String) :=
  match photo.path with
  | none => none
  | some existing_path =>
    match fileName existing_path with
    | none =>
      some (photo,
        ["Path doesn't appear to have a valid file name: " ++ existing_path])
    | some file_name =>
      let new_name :=
        match original_name with
        | none => file_name
        | some original_name => original_name
      match photo.date with
      | none => none
      | some date =>
        some ({ photo with new_path := some (plannedPath dest_dir date new_name) },
          [])

/-- `update_new_path` (main.rs lines 94-98): apply the planner to every photo
in the list; a panic anywhere aborts the whole program (`none`). -/
def update_new_path (dest_dir : String) : List Photo → Option (List Photo)
  | [] => some []
  | photo :: rest =>
    match update_photo_new_path dest_dir photo Option.none with
    | none => none
    | some (photo', _) =>
      match update_new_path dest_dir rest with
      | none => none
      | some rest' => some (photo' :: rest')

/-! ## Error model (`pserror` module, interface as used by main.rs) -/

inductive PsErrorKind where
  | IoError
deriving DecidableEq, Repr

/-- `PsError::new(kind, message)`. -/
structure PsError where
  kind : PsErrorKind
  message : String
deriving DecidableEq, Repr

/-! ## File-system model

Explicit state: an association list of regular files (path ↦ byte content)
plus the list of existing directories.  Syscall failures (permissions, disk
full, cross-device) are injected through an environment `SysEnv`: for each
operation it returns `none` for success or `some msg` for a failure with
error message `msg`.  `rename`/`copy` additionally fail inherently when the
source file does not exist. -/

structure FS where
  files : List (String × String)
  dirs : List String
deriving DecidableEq, Repr

def FS.lookupFile (fs : FS) (p : String) : Option String :=
  fs.files.lookup p

def FS.addDirs (fs : FS) (ds : List String) : FS :=
  { fs with dirs := ds ++ fs.dirs }

/-- Successful `std::fs::rename src dst`: the entry moves to `dst`,
overwriting any existing `dst`.  (A missing source is an inherent failure,
handled before this function is reached.) -/
def FS.renameFile (fs : FS) (src dst : String) : FS :=
  match fs.lookupFile src with
  | none => fs
  | some c =>
    { fs with
      files := (dst, c) :: fs.files.filter (fun e => e.1 ≠ src ∧ e.1 ≠ dst) }

/-- Successful `std::fs::copy src dst`: `dst` gets the bytes of `src`,
which is left in place. -/
def FS.copyFile (fs : FS) (src dst : String) : FS :=
  match fs.lookupFile src with
  | none => fs
  | some c =>
    { fs with files := (dst, c) :: fs.files.filter (fun e => e.1 ≠ dst) }

/-- Injected syscall outcomes: `none` = the syscall succeeds,
`some msg` = it fails with error message `msg`. -/
structure SysEnv where
  create_dir_all : String → Option String
  rename : String → String → Option String
  copy : String → String → Option String

/-! ## Embedding of `move_photo` (main.rs lines 134-181)

Returns `none` for a panic (the `.unwrap()` on `photo.new_path()` at line
135 or on `photo.path()` at line 163); otherwise the Rust
`Result<(), PsError>`, the resulting file system, and the log lines. -/

def move_photo (env : SysEnv) (fs : FS) (photo : Photo)
    (move_file dry_run : Bool) :
    Option (Except PsError Unit × FS × List String) :=
  match photo.new_path with
  | none => none
  | some new_path =>
    match parentPath new_path with
    | none =>
      some (.error ⟨.IoError, "No parent directory for " ++ new_path⟩, fs, [])
    | some dir =>
      let step2 : Except PsError FS :=
        if dir ∈ fs.dirs then .ok fs
        else
          match env.create_dir_all dir with
          | some msg => .error ⟨.IoError, msg⟩
          | none => .ok (fs.addDirs (createdDirs dir))
      match step2 with
      | .error e => some (.error e, fs, [])
      | .ok fs =>
        if dry_run then
          some (.ok (), fs,
            ["Dry-run, not really copying/moving " ++
              (match photo.path with
               | some p => "Some(\"" ++ p ++ "\")"
               | none => "None")])
        else
          match photo.path with
          | none => none
          | some original_path =>
            if move_file then
              match env.rename original_path new_path with
              | some err =>
                some (.ok (), fs, ["Failed to move file: " ++ err])
              | none =>
                match fs.lookupFile original_path with
                | none =>
                  some (.ok (), fs,
                    ["Failed to move file: No such file or directory"])
                | some _ => some (.ok (), fs.renameFile original_path new_path, [])
            else
              match env.copy original_path new_path with
              | some err =>
                some (.ok (), fs,
                  ["Failed to copy " ++ original_path ++ " -> " ++ new_path ++
                    ": " ++ err])
              | none =>
                match fs.lookupFile original_path with
                | none =>
                  some (.ok (), fs,
                    ["Failed to copy " ++ original_path ++ " -> " ++ new_path ++
                      ": No such file or directory"])
                | some _ => some (.ok (), fs.copyFile original_path new_path, [])

/-! ## The driver loop of `convert_files` (main.rs lines 75-89)

One `move_photo` call per photo; an `Err` result is logged with `warn!` and
the loop continues with the next photo.  Only a panic (`none`) aborts.  We
also return the list of per-item results, which in the Rust code exists only
as log lines. -/

def convertLoop (env : SysEnv) (fs : FS) (move_file dry_run : Bool) :
    List Photo → Option (FS × List (Except PsError Unit))
  | [] => some (fs, [])
  | photo :: rest =>
    match move_photo env fs photo move_file dry_run with
    | none => none
    | some (r, fs', _) =>
      match convertLoop env fs' move_file dry_run rest with
      | none => none
      | some (fsOut, rs) => some (fsOut, r :: rs)

/-! ## Date resolution and discovery (spec-modelled) -/

/-- Modelled from the spec: `discovery::discovery::process_raw_files` is not
under src/.  Per §4.2-4.3, date resolution returns an optional capture date;
a candidate with no resolvable date is logged "no valid date", counted as
skipped and excluded from planning — it is never given a synthetic date.
The result is the list of photos that proceed (each with its resolved date,
`new_path` unset) and the count of skipped candidates. -/
def process_raw_files (resolveDate : String → Option Date)
    (files : List String) : List Photo × Nat :=
  match files with
  | [] => ([], 0)
  | f :: rest =>
    let (photos, skipped) := process_raw_files resolveDate rest
    match resolveDate f with
    | none => (photos, skipped + 1)
    | some d => (⟨some f, none, some d⟩ :: photos, skipped)

/-- The non-archive branch of `convert_files` (main.rs lines 59-91), with
discovery's file list and the date resolver as parameters (the `discovery`
module is not under src/).  Returns the final file system; the Rust function
returns `()`, so no per-item counts are part of the result.  `none` is a
panic aborting the run. -/
def convert_files_dir (resolveDate : String → Option Date) (env : SysEnv)
    (fs : FS) (destination : String) (files : List String)
    (copy dry_run : Bool) : Option FS :=
  let (photo_list, _) := process_raw_files resolveDate files
  match update_new_path destination photo_list with
  | none => none
  | some photo_list =>
    match convertLoop env fs (!copy) dry_run photo_list with
    | none => none
    | some (fsOut, _) => some fsOut

/-- Same pipeline as `convert_files_dir`, exposing the list of per-item
`move_photo` results (which in the Rust code surface only as log lines,
never as data). -/
def convert_files_outcomes (resolveDate : String → Option Date) (env : SysEnv)
    (fs : FS) (destination : String) (files : List String)
    (copy dry_run : Bool) : Option (List (Except PsError Unit)) :=
  let (photo_list, _) := process_raw_files resolveDate files
  match update_new_path destination photo_list with
  | none => none
  | some photo_list =>
    match convertLoop env fs (!copy) dry_run photo_list with
    | none => none
    | some (_, rs) => some rs

def exceptIsOk : Except PsError Unit → Bool
  | .ok _ => true
  | .error _ => false

/-- Number of `Err` results among the per-item outcomes. -/
def countFailed (rs : List (Except PsError Unit)) : Nat :=
  (rs.filter (fun r => !exceptIsOk r)).length

/-- Modelled from the spec: `zipfiles::process_zip_file` is not under src/.
Per §4.1 and the §8 archive scenario, each archive entry is extracted to a
temporary file and the planner is invoked with the entry's original
in-archive name — its final path component, internal archive path discarded —
as the display name (`original_name`). -/
def plan_archive_entry (dest temp entryPath : String) (d : Date) :
    Option (Photo × List String) :=
  match fileName entryPath with
  | none => none
  | some n => update_photo_new_path dest ⟨some temp, none, some d⟩ (some n)

/-! ## Concrete objects used by witnesses and counterexamples -/

/-- Environment in which every syscall succeeds. -/
def envAllOk : SysEnv := ⟨fun _ => none, fun _ _ => none, fun _ _ => none⟩

/-- Environment in which `std::fs::copy` fails with `Permission denied`. -/
def envCopyDenied : SysEnv :=
  ⟨fun _ => none, fun _ _ => none, fun _ _ => some "Permission denied"⟩

/-- Environment in which `std::fs::create_dir_all` always fails. -/
def envMkdirDenied : SysEnv :=
  ⟨fun _ => some "Permission denied", fun _ _ => none, fun _ _ => none⟩

/-- Environment in which only `create_dir_all "/x"` fails. -/
def envMkdirDeniedX : SysEnv :=
  ⟨fun d => if d = "/x" then some "Permission denied" else none,
   fun _ _ => none, fun _ _ => none⟩

/-- One source file, destination tree not yet created. -/
def fsDemo : FS := ⟨[("/s/a.jpg", "BYTES")], ["/", "/s"]⟩

/-- One source file, destination tree already present. -/
def fsDemoDirs : FS :=
  ⟨[("/s/a.jpg", "BYTES")],
   ["/", "/s", "/d", "/d/2023", "/d/2023/05", "/d/2023/05/04"]⟩

/-- A fully planned photo. -/
def photoDemo : Photo :=
  ⟨some "/s/a.jpg", some "/d/2023/05/04/a.jpg", some ⟨2023, 5, 4⟩⟩

/-- A photo whose planned destination's parent `/x` cannot be created. -/
def photoBadDir : Photo :=
  ⟨some "/s/a.jpg", some "/x/a.jpg", some ⟨2023, 5, 4⟩⟩

/-- Date resolver that always resolves. -/
def rSomeDate : String → Option Date := fun _ => some ⟨2023, 5, 4⟩

/-- Date resolver that never resolves. -/
def rNoDate : String → Option Date := fun _ => none

end Photosort

namespace Photosort

theorem pad2_length (m : Nat) (h : m ≤ 99) : (pad2 m).length = 2 := by
  interval_cases m <;> rfl

theorem update_photo_some_orig (dest : String) (photo : Photo) (sp : String)
    (d : Date) (n : String) (hp : photo.path = some sp) (hd : photo.date = some d)
    (hfn : (fileName sp).isSome) :
    update_photo_new_path dest photo (some n) =
      some ({ photo with new_path := some (plannedPath dest d n) }, []) := by
  obtain ⟨fn, hfn'⟩ := Option.isSome_iff_exists.mp hfn
  simp [update_photo_new_path, hp, hfn', hd]

theorem update_photo_none_orig (dest : String) (photo : Photo) (sp : String)
    (d : Date) (n : String) (hp : photo.path = some sp) (hd : photo.date = some d)
    (hfn : fileName sp = some n) :
    update_photo_new_path dest photo none =
      some ({ photo with new_path := some (plannedPath dest d n) }, []) := by
  simp [update_photo_new_path, hp, hfn, hd]

/-- Claim C5: for a candidate with a source path, resolved date `(Y,M,D)` and
display name `N`, the planned destination equals `dest/Y/MM/DD/N` exactly,
month and day zero-padded to two digits, independent of the source location
(which enters only through `N`). -/
theorem planned_destination_exact
    (dest : String) (photo : Photo) (orig : Option String)
    (sp : String) (d : Date) (n : String)
    (hp : photo.path = some sp) (hd : photo.date = some d)
    (hn : (orig = some n ∧ (fileName sp).isSome) ∨
          (orig = none ∧ fileName sp = some n)) :
    update_photo_new_path dest photo orig =
      some ({ photo with new_path := some (dest ++ "/" ++ toString d.year ++ "/" ++
        pad2 d.month ++ "/" ++ pad2 d.day ++ "/" ++ n) }, []) ∧
    (d.month ≤ 99 → (pad2 d.month).length = 2) ∧
    (d.day ≤ 99 → (pad2 d.day).length = 2) := by
  refine ⟨?_, fun h => pad2_length _ h, fun h => pad2_length _ h⟩
  rcases hn with ⟨ho, hs⟩ | ⟨ho, hs⟩
  · subst ho; exact update_photo_some_orig dest photo sp d n hp hd hs
  · subst ho; exact update_photo_none_orig dest photo sp d n hp hd hs

/-- Witness for C5 at a concrete candidate. -/
theorem planned_destination_exact_witness :
    update_photo_new_path "/out" ⟨some "/src/a.jpg", none, some ⟨2023, 5, 4⟩⟩ none =
      some (⟨some "/src/a.jpg", some "/out/2023/05/04/a.jpg", some ⟨2023, 5, 4⟩⟩, []) := by
  have h := (planned_destination_exact "/out"
    ⟨some "/src/a.jpg", none, some ⟨2023, 5, 4⟩⟩ none "/src/a.jpg"
    ⟨2023, 5, 4⟩ "a.jpg" rfl rfl (Or.inr ⟨rfl, rfl⟩)).1
  simpa using h

/-- Claim C10: when the source path has no file-name component,
`update_photo_new_path` leaves the photo entirely unchanged and only logs;
the function has no error channel. -/
theorem no_file_name_leaves_photo_unchanged (dest : String) (photo : Photo)
    (orig : Option String) (sp : String)
    (hp : photo.path = some sp) (hfn : fileName sp = none) :
    update_photo_new_path dest photo orig =
      some (photo, ["Path doesn't appear to have a valid file name: " ++ sp]) := by
  simp [update_photo_new_path, hp, hfn]

/-- Witness for C10 at the path `/`, which has no file-name component. -/
theorem no_file_name_leaves_photo_unchanged_witness :
    update_photo_new_path "/out" ⟨some "/", none, some ⟨2023, 5, 4⟩⟩ none =
      some (⟨some "/", none, some ⟨2023, 5, 4⟩⟩,
        ["Path doesn't appear to have a valid file name: /"]) :=
  no_file_name_leaves_photo_unchanged "/out" ⟨some "/", none, some ⟨2023, 5, 4⟩⟩
    none "/" rfl rfl

/-- Claim C9: `move_photo` unconditionally unwraps `photo.new_path()` (and,
past the dry-run gate, `photo.path()`); when `new_path` is `None` the call
panics (modelled as `none`) instead of returning its `PsError` result, so a
set `new_path` is an unstated precondition of the relocator. -/
theorem move_photo_unwrap_precondition (env : SysEnv) (fs : FS) (photo : Photo)
    (mv dry : Bool) :
    (photo.new_path = none → move_photo env fs photo mv dry = none) ∧
    (∀ np dir, photo.new_path = some np → parentPath np = some dir →
      dir ∈ fs.dirs → photo.path = none →
      move_photo env fs photo mv false = none) := by
  constructor
  · intro h; simp [move_photo, h]
  · intro np dir hnp hpar hdir hp
    simp [move_photo, hnp, hpar, hdir, hp]

/-- Witness for C9: concrete photos with `new_path = none` and with
`path = none` past the dry-run gate both panic. -/
theorem move_photo_unwrap_precondition_witness :
    move_photo envAllOk fsDemo ⟨some "/s/a.jpg", none, some ⟨2023, 5, 4⟩⟩ true false = none ∧
    move_photo envAllOk fsDemo ⟨none, some "/s/x.jpg", none⟩ true false = none :=
  ⟨(move_photo_unwrap_precondition envAllOk fsDemo _ true false).1 rfl,
   (move_photo_unwrap_precondition envAllOk fsDemo _ true false).2 "/s/x.jpg" "/s"
     rfl rfl (by decide) rfl⟩

/-- Counterexample to claim C2: at a concrete input where the copy syscall
fails with `Permission denied`, `move_photo` logs the offending path pair but
returns `Ok` — not a `Failed` outcome. -/
theorem copy_failure_reported_ok_cex :
    envCopyDenied.copy "/s/a.jpg" "/d/2023/05/04/a.jpg" = some "Permission denied" ∧
    (move_photo envCopyDenied fsDemoDirs photoDemo false false).map
        (fun r => (r.1, r.2.2)) =
      some (Except.ok (),
        ["Failed to copy /s/a.jpg -> /d/2023/05/04/a.jpg: Permission denied"]) := by
  exact ⟨rfl, rfl⟩

/-- Claim C2 (amended): a copy/move syscall failure is caught and logged (the
copy branch logs the offending path pair, the move branch logs only the
error message) and the file system is left unchanged, but `move_photo`
nevertheless returns `Ok` — the failure is not reported as `Failed` to the
caller. -/
theorem syscall_failure_logged_but_ok
    (env : SysEnv) (fs : FS) (photo : Photo) (np dir sp : String)
    (hnp : photo.new_path = some np) (hpar : parentPath np = some dir)
    (hdir : dir ∈ fs.dirs) (hp : photo.path = some sp) :
    (∀ msg, env.copy sp np = some msg →
      move_photo env fs photo false false =
        some (.ok (), fs,
          ["Failed to copy " ++ sp ++ " -> " ++ np ++ ": " ++ msg])) ∧
    (∀ msg, env.rename sp np = some msg →
      move_photo env fs photo true false =
        some (.ok (), fs, ["Failed to move file: " ++ msg])) := by
  constructor
  · intro msg hmsg
    simp [move_photo, hnp, hpar, hdir, hp, hmsg]
  · intro msg hmsg
    simp [move_photo, hnp, hpar, hdir, hp, hmsg]

/-- Witness for amended C2 at a concrete failing copy. -/
theorem syscall_failure_logged_but_ok_witness :
    move_photo envCopyDenied fsDemoDirs photoDemo false false =
      some (.ok (), fsDemoDirs,
        ["Failed to copy " ++ "/s/a.jpg" ++ " -> " ++ "/d/2023/05/04/a.jpg" ++
          ": " ++ "Permission denied"]) :=
  (syscall_failure_logged_but_ok envCopyDenied fsDemoDirs photoDemo
    "/d/2023/05/04/a.jpg" "/d/2023/05/04" "/s/a.jpg"
    rfl rfl (by decide) rfl).1 "Permission denied" rfl

/-- Counterexample to claim C3: in dry-run mode `move_photo` still creates
the missing destination parent directories, so the file system is mutated
even though the outcome reports success. -/
theorem dry_run_creates_directories_cex :
    move_photo envAllOk fsDemo photoDemo true true =
      some (.ok (),
        ⟨[("/s/a.jpg", "BYTES")],
         ["/d", "/d/2023", "/d/2023/05", "/d/2023/05/04", "/", "/s"]⟩,
        ["Dry-run, not really copying/moving Some(\"/s/a.jpg\")"]) ∧
    (⟨[("/s/a.jpg", "BYTES")],
      ["/d", "/d/2023", "/d/2023/05", "/d/2023/05/04", "/", "/s"]⟩ : FS) ≠ fsDemo := by
  exact ⟨rfl, by decide⟩

/-- Claim C3 (amended): in dry-run mode no file is created, removed or
modified — the `files` component of the state is unchanged — and the outcome
reports success whenever the parent directory exists or can be created;
missing destination parent directories are, however, still created. -/
theorem dry_run_no_file_mutation
    (env : SysEnv) (fs : FS) (photo : Photo) (mv : Bool) (np dir : String)
    (hnp : photo.new_path = some np) (hpar : parentPath np = some dir)
    (hok : dir ∈ fs.dirs ∨ env.create_dir_all dir = none) :
    ∃ fs' logs, move_photo env fs photo mv true = some (.ok (), fs', logs) ∧
      fs'.files = fs.files := by
  by_cases hd : dir ∈ fs.dirs
  · exact ⟨fs, ["Dry-run, not really copying/moving " ++
      (match photo.path with
       | some p => "Some(\"" ++ p ++ "\")"
       | none => "None")], by simp [move_photo, hnp, hpar, hd], rfl⟩
  · have hcr : env.create_dir_all dir = none := by tauto
    exact ⟨fs.addDirs (createdDirs dir),
      ["Dry-run, not really copying/moving " ++
        (match photo.path with
         | some p => "Some(\"" ++ p ++ "\")"
         | none => "None")], by simp [move_photo, hnp, hpar, hd, hcr], rfl⟩

/-- Witness for amended C3 at a concrete dry run. -/
theorem dry_run_no_file_mutation_witness :
    ∃ fs' logs, move_photo envAllOk fsDemo photoDemo true true =
      some (.ok (), fs', logs) ∧ fs'.files = fsDemo.files :=
  dry_run_no_file_mutation envAllOk fsDemo photoDemo true
    "/d/2023/05/04/a.jpg" "/d/2023/05/04" rfl rfl (Or.inr rfl)

theorem lookup_filter_keep (p : String → Bool) (t : String)
    (l : List (String × String)) (hp : p t = true) :
    (l.filter (fun e => p e.1)).lookup t = l.lookup t := by
  induction l with
  | nil => rfl
  | cons e rest ih =>
    obtain ⟨k, v⟩ := e
    by_cases hk : p k = true
    · rw [List.filter_cons_of_pos (by simpa using hk)]
      by_cases ht : t = k
      · subst ht; simp [List.lookup]
      · have hbeq : (t == k) = false := beq_false_of_ne ht
        simp [List.lookup, hbeq, ih]
    · have ht : t ≠ k := by rintro rfl; exact hk hp
      rw [List.filter_cons_of_neg (by simpa using hk)]
      have hbeq : (t == k) = false := beq_false_of_ne ht
      simp [List.lookup, hbeq, ih]

theorem lookup_filter_drop (p : String → Bool) (t : String)
    (l : List (String × String)) (hp : p t = false) :
    (l.filter (fun e => p e.1)).lookup t = none := by
  induction l with
  | nil => rfl
  | cons e rest ih =>
    obtain ⟨k, v⟩ := e
    by_cases hk : p k = true
    · have ht : t ≠ k := by rintro rfl; rw [hp] at hk; exact Bool.noConfusion hk
      rw [List.filter_cons_of_pos (by simpa using hk)]
      have hbeq : (t == k) = false := beq_false_of_ne ht
      simp [List.lookup, hbeq, ih]
    · rw [List.filter_cons_of_neg (by simpa using hk)]
      exact ih

theorem renameFile_lookups (fs : FS) (sp np c : String) (hne : sp ≠ np)
    (hc : fs.lookupFile sp = some c) :
    (fs.renameFile sp np).lookupFile sp = none ∧
    (fs.renameFile sp np).lookupFile np = some c := by
  have hbeq : (sp == np) = false := beq_false_of_ne hne
  constructor
  · show ((fs.renameFile sp np).files).lookup sp = none
    simp only [FS.renameFile, hc]
    simp only [List.lookup, hbeq]
    exact lookup_filter_drop (fun x => decide (x ≠ sp ∧ x ≠ np)) sp fs.files
      (by simp)
  · show ((fs.renameFile sp np).files).lookup np = some c
    simp only [FS.renameFile, hc]
    simp [List.lookup]

theorem copyFile_lookups (fs : FS) (sp np c : String) (hne : sp ≠ np)
    (hc : fs.lookupFile sp = some c) :
    (fs.copyFile sp np).lookupFile sp = some c ∧
    (fs.copyFile sp np).lookupFile np = some c := by
  have hbeq : (sp == np) = false := beq_false_of_ne hne
  constructor
  · show ((fs.copyFile sp np).files).lookup sp = some c
    simp only [FS.copyFile, hc]
    simp only [List.lookup, hbeq]
    rw [lookup_filter_keep (fun x => decide (x ≠ np)) sp fs.files (by simp [hne])]
    exact hc
  · show ((fs.copyFile sp np).files).lookup np = some c
    simp only [FS.copyFile, hc]
    simp [List.lookup]

/-- Claim C7: after a successful rename in move mode the source file is gone
and the destination holds its bytes; after a successful copy in copy mode
the source file remains and the destination holds byte-identical content. -/
theorem move_removes_copy_preserves
    (env : SysEnv) (fs : FS) (photo : Photo) (np dir sp c : String)
    (hnp : photo.new_path = some np) (hpar : parentPath np = some dir)
    (hdir : dir ∈ fs.dirs) (hp : photo.path = some sp)
    (hc : fs.lookupFile sp = some c) (hne : sp ≠ np) :
    (env.rename sp np = none →
      ∃ fs', move_photo env fs photo true false = some (.ok (), fs', []) ∧
        fs'.lookupFile sp = none ∧ fs'.lookupFile np = some c) ∧
    (env.copy sp np = none →
      ∃ fs', move_photo env fs photo false false = some (.ok (), fs', []) ∧
        fs'.lookupFile sp = some c ∧ fs'.lookupFile np = some c) := by
  constructor
  · intro hr
    refine ⟨fs.renameFile sp np, ?_, renameFile_lookups fs sp np c hne hc⟩
    simp [move_photo, hnp, hpar, hdir, hp, hr, hc]
  · intro hcp
    refine ⟨fs.copyFile sp np, ?_, copyFile_lookups fs sp np c hne hc⟩
    simp [move_photo, hnp, hpar, hdir, hp, hcp, hc]

/-- Witness for C7 at a concrete move and a concrete copy. -/
theorem move_removes_copy_preserves_witness :
    (∃ fs', move_photo envAllOk fsDemoDirs photoDemo true false =
        some (.ok (), fs', []) ∧
      fs'.lookupFile "/s/a.jpg" = none ∧
      fs'.lookupFile "/d/2023/05/04/a.jpg" = some "BYTES") ∧
    (∃ fs', move_photo envAllOk fsDemoDirs photoDemo false false =
        some (.ok (), fs', []) ∧
      fs'.lookupFile "/s/a.jpg" = some "BYTES" ∧
      fs'.lookupFile "/d/2023/05/04/a.jpg" = some "BYTES") :=
  ⟨(move_removes_copy_preserves envAllOk fsDemoDirs photoDemo
      "/d/2023/05/04/a.jpg" "/d/2023/05/04" "/s/a.jpg" "BYTES"
      rfl rfl (by decide) rfl rfl (by decide)).1 rfl,
   (move_removes_copy_preserves envAllOk fsDemoDirs photoDemo
      "/d/2023/05/04/a.jpg" "/d/2023/05/04" "/s/a.jpg" "BYTES"
      rfl rfl (by decide) rfl rfl (by decide)).2 rfl⟩

theorem move_photo_total (env : SysEnv) (fs : FS) (photo : Photo) (mv dry : Bool)
    (h1 : photo.new_path.isSome) (h2 : dry = true ∨ photo.path.isSome) :
    (move_photo env fs photo mv dry).isSome := by
  obtain ⟨np, hnp⟩ := Option.isSome_iff_exists.mp h1
  cases hpar : parentPath np with
  | none => simp [move_photo, hnp, hpar]
  | some dir =>
    by_cases hd : dir ∈ fs.dirs
    · cases dry with
      | true => simp [move_photo, hnp, hpar, hd]
      | false =>
        obtain ⟨sp, hsp⟩ := Option.isSome_iff_exists.mp (h2.resolve_left (by simp))
        cases mv with
        | true =>
          cases hr : env.rename sp np with
          | some msg => simp [move_photo, hnp, hpar, hd, hsp, hr]
          | none =>
            cases hl : fs.lookupFile sp with
            | none => simp [move_photo, hnp, hpar, hd, hsp, hr, hl]
            | some c => simp [move_photo, hnp, hpar, hd, hsp, hr, hl]
        | false =>
          cases hr : env.copy sp np with
          | some msg => simp [move_photo, hnp, hpar, hd, hsp, hr]
          | none =>
            cases hl : fs.lookupFile sp with
            | none => simp [move_photo, hnp, hpar, hd, hsp, hr, hl]
            | some c => simp [move_photo, hnp, hpar, hd, hsp, hr, hl]
    · cases hcr : env.create_dir_all dir with
      | some msg => simp [move_photo, hnp, hpar, hd, hcr]
      | none =>
        cases dry with
        | true => simp [move_photo, hnp, hpar, hd, hcr]
        | false =>
          obtain ⟨sp, hsp⟩ := Option.isSome_iff_exists.mp (h2.resolve_left (by simp))
          cases mv with
          | true =>
            cases hr : env.rename sp np with
            | some msg => simp [move_photo, hnp, hpar, hd, hcr, hsp, hr]
            | none =>
              cases hl : (fs.addDirs (createdDirs dir)).lookupFile sp with
              | none => simp [move_photo, hnp, hpar, hd, hcr, hsp, hr, hl]
              | some c => simp [move_photo, hnp, hpar, hd, hcr, hsp, hr, hl]
          | false =>
            cases hr : env.copy sp np with
            | some msg => simp [move_photo, hnp, hpar, hd, hcr, hsp, hr]
            | none =>
              cases hl : (fs.addDirs (createdDirs dir)).lookupFile sp with
              | none => simp [move_photo, hnp, hpar, hd, hcr, hsp, hr, hl]
              | some c => simp [move_photo, hnp, hpar, hd, hcr, hsp, hr, hl]

theorem convertLoop_total (env : SysEnv) (mv dry : Bool) :
    ∀ (photos : List Photo) (fs : FS),
    (∀ ph ∈ photos, ph.new_path.isSome ∧ (dry = true ∨ ph.path.isSome)) →
    ∃ fsOut rs, convertLoop env fs mv dry photos = some (fsOut, rs) ∧
      rs.length = photos.length := by
  intro photos
  induction photos with
  | nil => exact fun fs _ => ⟨fs, [], rfl, rfl⟩
  | cons ph rest ih =>
    intro fs h
    have hph := h ph (List.mem_cons_self ph rest)
    have hmp := move_photo_total env fs ph mv dry hph.1 hph.2
    obtain ⟨⟨r, fs1, logs⟩, hmp'⟩ := Option.isSome_iff_exists.mp hmp
    obtain ⟨fsOut, rs, hloop, hlen⟩ :=
      ih fs1 (fun p hp => h p (List.mem_cons_of_mem _ hp))
    exact ⟨fsOut, r :: rs, by simp [convertLoop, hmp', hloop], by simp [hlen]⟩

/-- Claim C4: the driver loop attempts every photo of the list — it returns
one outcome per item — and an `Err` outcome for item `i` does not prevent
item `i+1` from being attempted (only a panic aborts the loop). -/
theorem failure_does_not_stop_driver (env : SysEnv) (mv dry : Bool)
    (photos : List Photo) (fs : FS)
    (h : ∀ ph ∈ photos, ph.new_path.isSome ∧ (dry = true ∨ ph.path.isSome)) :
    ∃ fsOut rs, convertLoop env fs mv dry photos = some (fsOut, rs) ∧
      rs.length = photos.length :=
  convertLoop_total env mv dry photos fs h

/-- Witness for C4: a two-item run whose first item fails (directory
creation denied) and whose second item still succeeds. -/
theorem failure_does_not_stop_driver_witness :
    (∃ fsOut rs,
      convertLoop envMkdirDeniedX fsDemoDirs true false [photoBadDir, photoDemo] =
        some (fsOut, rs) ∧ rs.length = 2) ∧
    (convertLoop envMkdirDeniedX fsDemoDirs true false [photoBadDir, photoDemo]).map
        (fun r => r.2.map exceptIsOk) = some [false, true] :=
  ⟨failure_does_not_stop_driver envMkdirDeniedX true false [photoBadDir, photoDemo]
      fsDemoDirs (by decide), rfl⟩

theorem process_raw_files_mem (resolver : String → Option Date)
    (files : List String) (ph : Photo)
    (h : ph ∈ (process_raw_files resolver files).1) :
    ∃ f d, ph = ⟨some f, none, some d⟩ ∧ resolver f = some d ∧ f ∈ files := by
  induction files with
  | nil => simp [process_raw_files] at h
  | cons f rest ih =>
    rw [process_raw_files] at h
    cases hr : resolver f with
    | none =>
      rw [hr] at h
      obtain ⟨g, d, hph, hgd, hg⟩ := ih h
      exact ⟨g, d, hph, hgd, List.mem_cons_of_mem _ hg⟩
    | some d =>
      rw [hr] at h
      rcases List.mem_cons.mp h with hph | h'
      · exact ⟨f, d, hph, hr, List.mem_cons_self f rest⟩
      · obtain ⟨g, d', hph, hgd, hg⟩ := ih h'
        exact ⟨g, d', hph, hgd, List.mem_cons_of_mem _ hg⟩

theorem process_raw_files_skipped (resolver : String → Option Date)
    (files : List String) :
    (process_raw_files resolver files).2 =
      (files.filter (fun g => resolver g = none)).length := by
  induction files with
  | nil => rfl
  | cons f rest ih =>
    rw [process_raw_files]
    cases hr : resolver f with
    | none => simp [List.filter_cons, hr, ih]
    | some d => simp [List.filter_cons, hr, ih]

theorem process_raw_files_length (resolver : String → Option Date)
    (files : List String) :
    (process_raw_files resolver files).1.length +
      (process_raw_files resolver files).2 = files.length := by
  induction files with
  | nil => rfl
  | cons f rest ih =>
    rcases hpr : process_raw_files resolver rest with ⟨photos, skipped⟩
    rw [hpr] at ih
    rw [process_raw_files, hpr]
    cases hr : resolver f with
    | none => simp at ih ⊢; omega
    | some d => simp at ih ⊢; omega

theorem update_photo_new_path_path (dest : String) (ph ph' : Photo)
    (o : Option String) (logs : List String)
    (h : update_photo_new_path dest ph o = some (ph', logs)) :
    ph'.path = ph.path := by
  cases hp : ph.path with
  | none => simp [update_photo_new_path, hp] at h
  | some p =>
    cases hfn : fileName p with
    | none =>
      simp [update_photo_new_path, hp, hfn] at h
      rw [← h.1]
      exact hp
    | some fn =>
      cases hd : ph.date with
      | none => simp [update_photo_new_path, hp, hfn, hd] at h
      | some d =>
        simp [update_photo_new_path, hp, hfn, hd] at h
        rw [← h.1]

theorem update_new_path_mem_path (dest : String) :
    ∀ (photos photos' : List Photo),
    update_new_path dest photos = some photos' →
    ∀ ph' ∈ photos', ∃ ph ∈ photos, ph'.path = ph.path := by
  intro photos
  induction photos with
  | nil =>
    intro photos' h ph' hph'
    simp [update_new_path] at h
    subst h
    simp at hph'
  | cons p rest ih =>
    intro photos' h ph' hph'
    rw [update_new_path] at h
    cases hu : update_photo_new_path dest p none with
    | none => rw [hu] at h; exact absurd h (by simp)
    | some pr =>
      obtain ⟨p1, logs⟩ := pr
      rw [hu] at h
      cases hrest : update_new_path dest rest with
      | none => rw [hrest] at h; exact absurd h (by simp)
      | some rest' =>
        rw [hrest] at h
        simp at h
        subst h
        rcases List.mem_cons.mp hph' with hph1 | hphr
        · subst hph1
          exact ⟨p, List.mem_cons_self p rest,
            update_photo_new_path_path dest p ph' none logs hu⟩
        · obtain ⟨ph, hmem, hpath⟩ := ih rest' hrest ph' hphr
          exact ⟨ph, List.mem_cons_of_mem _ hmem, hpath⟩

/-- Claim C1: a candidate with no resolvable capture date never becomes a
photo entering planning — it is never assigned a date or destination and the
relocation loop is never invoked for it — and it is counted in the skipped
tally, which equals the number of dateless candidates. -/
theorem no_date_never_planned_never_relocated
    (resolver : String → Option Date) (files : List String) (f : String)
    (hf : f ∈ files) (hr : resolver f = none) :
    (∀ ph ∈ (process_raw_files resolver files).1, ph.path ≠ some f) ∧
    1 ≤ (process_raw_files resolver files).2 ∧
    (process_raw_files resolver files).2 =
      (files.filter (fun g => resolver g = none)).length ∧
    (∀ ph ∈ (process_raw_files resolver files).1,
      ph.new_path = none ∧ ph.date.isSome) ∧
    (∀ dest photos',
      update_new_path dest (process_raw_files resolver files).1 = some photos' →
      ∀ ph' ∈ photos', ph'.path ≠ some f) := by
  have hmem := process_raw_files_mem resolver files
  have hnotf : ∀ ph ∈ (process_raw_files resolver files).1, ph.path ≠ some f := by
    intro ph hph hpf
    obtain ⟨g, d, hph', hgd, _⟩ := hmem ph hph
    subst hph'
    simp at hpf
    subst hpf
    rw [hr] at hgd
    exact Option.noConfusion hgd
  refine ⟨hnotf, ?_, process_raw_files_skipped resolver files, ?_, ?_⟩
  · rw [process_raw_files_skipped resolver files]
    have : f ∈ files.filter (fun g => resolver g = none) :=
      List.mem_filter.mpr ⟨hf, by simp [hr]⟩
    exact List.length_pos.mpr (List.ne_nil_of_mem this)
  · intro ph hph
    obtain ⟨g, d, hph', hgd, _⟩ := hmem ph hph
    subst hph'
    simp
  · intro dest photos' hup ph' hph' hpf
    obtain ⟨ph, hmemph, hpath⟩ :=
      update_new_path_mem_path dest _ photos' hup ph' hph'
    exact hnotf ph hmemph (hpath ▸ hpf)

/-- Witness for C1 at a concrete dateless candidate. -/
theorem no_date_never_planned_never_relocated_witness :
    (∀ ph ∈ (process_raw_files rNoDate ["/s/b.jpg"]).1, ph.path ≠ some "/s/b.jpg") ∧
    1 ≤ (process_raw_files rNoDate ["/s/b.jpg"]).2 ∧
    (process_raw_files rNoDate ["/s/b.jpg"]).2 =
      ((["/s/b.jpg"] : List String).filter (fun g => rNoDate g = none)).length ∧
    (∀ ph ∈ (process_raw_files rNoDate ["/s/b.jpg"]).1,
      ph.new_path = none ∧ ph.date.isSome) ∧
    (∀ dest photos',
      update_new_path dest (process_raw_files rNoDate ["/s/b.jpg"]).1 = some photos' →
      ∀ ph' ∈ photos', ph'.path ≠ some "/s/b.jpg") :=
  no_date_never_planned_never_relocated rNoDate ["/s/b.jpg"] "/s/b.jpg"
    (List.mem_singleton.mpr rfl) rfl

theorem update_new_path_planned (dest : String) :
    ∀ (photos : List Photo),
    (∀ ph ∈ photos, ∃ f d, ph.path = some f ∧ ph.date = some d ∧
      (fileName f).isSome) →
    ∃ photos', update_new_path dest photos = some photos' ∧
      photos'.length = photos.length ∧
      ∀ ph' ∈ photos', ph'.new_path.isSome ∧ ph'.path.isSome := by
  intro photos
  induction photos with
  | nil => exact fun _ => ⟨[], rfl, rfl, by simp⟩
  | cons p rest ih =>
    intro h
    obtain ⟨f, d, hp, hd, hfn⟩ := h p (List.mem_cons_self p rest)
    obtain ⟨fn, hfn'⟩ := Option.isSome_iff_exists.mp hfn
    have hup := update_photo_none_orig dest p f d fn hp hd hfn'
    obtain ⟨rest', hrest, hlen, hpl⟩ :=
      ih (fun q hq => h q (List.mem_cons_of_mem _ hq))
    refine ⟨{ p with new_path := some (plannedPath dest d fn) } :: rest',
      ?_, by simp [hlen], ?_⟩
    · rw [update_new_path, hup, hrest]
    · intro ph' hph'
      rcases List.mem_cons.mp hph' with h1 | h2
      · subst h1
        exact ⟨rfl, by simp [hp]⟩
      · exact hpl ph' h2

/-- Counterexample to claim C6: two concrete runs with different
failed/skipped tallies (0 skipped, 1 failed versus 1 skipped, 0 failed)
return the identical value to the caller — `convert_files` computes and
returns no aggregate counts. -/
theorem counts_not_available_to_caller_cex :
    convert_files_dir rSomeDate envMkdirDenied fsDemo "/d" ["/s/a.jpg"] false false =
      convert_files_dir rNoDate envMkdirDenied fsDemo "/d" ["/s/a.jpg"] false false ∧
    (convert_files_outcomes rSomeDate envMkdirDenied fsDemo "/d"
        ["/s/a.jpg"] false false).map countFailed = some 1 ∧
    (convert_files_outcomes rNoDate envMkdirDenied fsDemo "/d"
        ["/s/a.jpg"] false false).map countFailed = some 0 ∧
    (process_raw_files rSomeDate ["/s/a.jpg"]).2 = 0 ∧
    (process_raw_files rNoDate ["/s/a.jpg"]).2 = 1 :=
  ⟨rfl, rfl, rfl, rfl, rfl⟩

/-- Claim C6 (amended): the driver attempts relocation of every photo that
survives date resolution, producing one outcome per photo, and
attempted + skipped equals the number of discovered candidates; but no
aggregate succeeded/skipped/failed counts are returned to the caller. -/
theorem driver_attempts_all_returns_no_counts
    (resolver : String → Option Date) (env : SysEnv) (fs : FS)
    (dest : String) (files : List String) (copy dry : Bool)
    (h : ∀ f ∈ files, ∀ d, resolver f = some d → (fileName f).isSome) :
    ∃ photos' fsOut rs,
      update_new_path dest (process_raw_files resolver files).1 = some photos' ∧
      convertLoop env fs (!copy) dry photos' = some (fsOut, rs) ∧
      convert_files_dir resolver env fs dest files copy dry = some fsOut ∧
      convert_files_outcomes resolver env fs dest files copy dry = some rs ∧
      rs.length + (process_raw_files resolver files).2 = files.length := by
  have hshape : ∀ ph ∈ (process_raw_files resolver files).1,
      ∃ f d, ph.path = some f ∧ ph.date = some d ∧ (fileName f).isSome := by
    intro ph hph
    obtain ⟨f, d, hph', hfd, hfin⟩ := process_raw_files_mem resolver files ph hph
    subst hph'
    exact ⟨f, d, rfl, rfl, h f hfin d hfd⟩
  obtain ⟨photos', hup, hlen, hplanned⟩ := update_new_path_planned dest _ hshape
  obtain ⟨fsOut, rs, hloop, hrslen⟩ := convertLoop_total env (!copy) dry photos' fs
    (fun ph hph => ⟨(hplanned ph hph).1, Or.inr (hplanned ph hph).2⟩)
  have hcount := process_raw_files_length resolver files
  refine ⟨photos', fsOut, rs, hup, hloop, ?_, ?_, by omega⟩
  · rcases hpr : process_raw_files resolver files with ⟨plist, skipped⟩
    rw [hpr] at hup
    simp only [convert_files_dir, hpr]
    simp only at hup
    rw [hup]
    simp [hloop]
  · rcases hpr : process_raw_files resolver files with ⟨plist, skipped⟩
    rw [hpr] at hup
    simp only [convert_files_outcomes, hpr]
    simp only at hup
    rw [hup]
    simp [hloop]

/-- Witness for amended C6 at a concrete one-candidate run. -/
theorem driver_attempts_all_returns_no_counts_witness :
    ∃ photos' fsOut rs,
      update_new_path "/d" (process_raw_files rSomeDate ["/s/a.jpg"]).1 = some photos' ∧
      convertLoop envAllOk fsDemo (!true) false photos' = some (fsOut, rs) ∧
      convert_files_dir rSomeDate envAllOk fsDemo "/d" ["/s/a.jpg"] true false = some fsOut ∧
      convert_files_outcomes rSomeDate envAllOk fsDemo "/d" ["/s/a.jpg"] true false = some rs ∧
      rs.length + (process_raw_files rSomeDate ["/s/a.jpg"]).2 = 1 :=
  driver_attempts_all_returns_no_counts rSomeDate envAllOk fsDemo "/d"
    ["/s/a.jpg"] true false
    (fun f hf d _ => by rw [List.mem_singleton.mp hf]; rfl)

theorem splitSlash_ne_nil (cs : List Char) : splitSlash cs ≠ [] := by
  cases cs with
  | nil => simp [splitSlash]
  | cons c rest =>
    rw [splitSlash]
    cases h : splitSlash rest with
    | nil => simp
    | cons s ss =>
      by_cases hc : c = '/'
      · simp [hc]
      · simp [hc]

theorem splitSlash_append (a b : List Char) :
    splitSlash (a ++ '/' :: b) = splitSlash a ++ splitSlash b := by
  induction a with
  | nil =>
    rw [List.nil_append]
    cases hb : splitSlash b with
    | nil => exact absurd hb (splitSlash_ne_nil b)
    | cons t ts => simp [splitSlash, hb]
  | cons c a' ih =>
    rw [List.cons_append]
    cases ha : splitSlash a' with
    | nil => exact absurd ha (splitSlash_ne_nil a')
    | cons s ss =>
      by_cases hc : c = '/'
      · subst hc
        simp [splitSlash, ih, ha]
      · simp [splitSlash, ih, ha, hc]

theorem splitSlash_no_slash (cs : List Char) (h : '/' ∉ cs) :
    splitSlash cs = [cs] := by
  induction cs with
  | nil => rfl
  | cons c rest ih =>
    have hc : c ≠ '/' := fun hc => h (hc ▸ List.mem_cons_self c rest)
    have hrest : '/' ∉ rest := fun hr => h (List.mem_cons_of_mem _ hr)
    rw [splitSlash, ih hrest]
    simp [hc]

theorem normComps_getLast (hasRoot : Bool) (rawS : List (List Char))
    (x : List Char) (hdot : x ≠ ['.']) :
    (normComps hasRoot (rawS ++ [x])).getLast? = some x := by
  cases rawS with
  | nil => simp [normComps, hdot]
  | cons c rest =>
    rw [List.cons_append, normComps]
    have hrestF : (rest ++ [x]).filter (fun c => c ≠ ['.']) =
        rest.filter (fun c => c ≠ ['.']) ++ [x] := by
      rw [List.filter_append]
      simp [hdot]
    by_cases hc : c = ['.']
    · subst hc
      rw [if_pos rfl]
      cases hasRoot with
      | true => rw [if_pos rfl, hrestF, List.getLast?_concat]
      | false =>
        rw [if_neg (by simp), hrestF, ← List.cons_append, List.getLast?_concat]
    · rw [if_neg hc, hrestF, ← List.cons_append, List.getLast?_concat]

theorem fileName_append_slash (s n : String)
    (h0 : n.data ≠ []) (hs : '/' ∉ n.data) (h1 : n.data ≠ ['.'])
    (h2 : n.data ≠ ['.', '.']) :
    fileName (s ++ "/" ++ n) = some n := by
  have hdata : (s ++ "/" ++ n).data = s.data ++ '/' :: n.data := by
    rw [String.data_append, String.data_append]
    simp
  have hraw : ((splitSlash (s ++ "/" ++ n).data).filter (fun c => c ≠ [])) =
      ((splitSlash s.data).filter (fun c => c ≠ [])) ++ [n.data] := by
    rw [hdata, splitSlash_append, splitSlash_no_slash n.data hs,
      List.filter_append]
    simp [h0]
  have hsnd : (pathComponents (s ++ "/" ++ n)).2 =
      normComps (pathComponents (s ++ "/" ++ n)).1
        ((splitSlash (s ++ "/" ++ n).data).filter (fun c => c ≠ [])) := rfl
  rw [fileName, hsnd, hraw, normComps_getLast _ _ _ h1]
  simp [h1, h2]

/-- Claim C8: an archive-extracted candidate is planned under its original
in-archive entry name: the final path component of the planned destination
is that name, and the planned destination is identical for any temporary
extraction path. -/
theorem archive_entry_keeps_original_name
    (dest temp entryPath : String) (d : Date) (n : String)
    (hn : fileName entryPath = some n)
    (ht : (fileName temp).isSome)
    (h0 : n.data ≠ []) (hs : '/' ∉ n.data) (h1 : n.data ≠ ['.'])
    (h2 : n.data ≠ ['.', '.']) :
    plan_archive_entry dest temp entryPath d =
      some (⟨some temp, some (plannedPath dest d n), some d⟩, []) ∧
    fileName (plannedPath dest d n) = some n ∧
    ∀ temp₂ : String, (fileName temp₂).isSome →
      plan_archive_entry dest temp₂ entryPath d =
        some (⟨some temp₂, some (plannedPath dest d n), some d⟩, []) := by
  have hplan : ∀ t : String, (fileName t).isSome →
      plan_archive_entry dest t entryPath d =
        some (⟨some t, some (plannedPath dest d n), some d⟩, []) := by
    intro t htt
    rw [plan_archive_entry, hn]
    exact update_photo_some_orig dest ⟨some t, none, some d⟩ t d n rfl rfl htt
  exact ⟨hplan temp ht,
    fileName_append_slash
      (dest ++ "/" ++ toString d.year ++ "/" ++ pad2 d.month ++ "/" ++ pad2 d.day)
      n h0 hs h1 h2,
    hplan⟩

/-- Witness for C8: entry `sub/IMG_001.jpg` extracted to a temporary file is
planned as `/out/2021/01/09/IMG_001.jpg`. -/
theorem archive_entry_keeps_original_name_witness :
    plan_archive_entry "/out" "/tmp/xyz123.jpg" "sub/IMG_001.jpg" ⟨2021, 1, 9⟩ =
      some (⟨some "/tmp/xyz123.jpg",
        some (plannedPath "/out" ⟨2021, 1, 9⟩ "IMG_001.jpg"), some ⟨2021, 1, 9⟩⟩, []) ∧
    fileName (plannedPath "/out" ⟨2021, 1, 9⟩ "IMG_001.jpg") = some "IMG_001.jpg" ∧
    ∀ temp₂ : String, (fileName temp₂).isSome →
      plan_archive_entry "/out" temp₂ "sub/IMG_001.jpg" ⟨2021, 1, 9⟩ =
        some (⟨some temp₂,
          some (plannedPath "/out" ⟨2021, 1, 9⟩ "IMG_001.jpg"), some ⟨2021, 1, 9⟩⟩, []) :=
  archive_entry_keeps_original_name "/out" "/tmp/xyz123.jpg" "sub/IMG_001.jpg"
    ⟨2021, 1, 9⟩ "IMG_001.jpg" rfl rfl (by decide) (by decide) (by decide) (by decide)

end Photosort
